import Mathlib

/-!
Verification of the parallel people-counting system
(`src/parallel/worker.py`, `src/parallel/parallel_people_counter.py`,
`src/parallel/utils/result_handler.py`, `src/tracker/trackableobject.py`).

The Python code is shallowly embedded: machine state becomes explicit record
types, dictionaries become association lists preserving Python's insertion
order, float arithmetic on centroid means becomes exact rational arithmetic,
and nondeterministic inputs (wall-clock timestamps, frames delivered by a
stream, detector output, exceptions raised while processing a frame) become
explicit parameters.
-/

namespace RTPC

/-- `TrackableObject` from `src/tracker/trackableobject.py`: object id,
centroid history (initialised with the first centroid), and the `counted`
flag (initialised `False`). -/
structure TrackableObject where
  objectID : ℕ
  centroids : List (ℤ × ℤ)
  counted : Bool
deriving Repr, DecidableEq

/-- `TrackableObject.__init__`: history `[centroid]`, `counted = False`. -/
def TrackableObject.init (objectID : ℕ) (centroid : ℤ × ℤ) : TrackableObject :=
  { objectID := objectID, centroids := [centroid], counted := false }

/-- What the per-object counting branch of `count_people` did for one
`(objectID, centroid)` pair: nothing, an OUT event (`totalUp`), or an IN
event (`totalDown`). -/
inductive CountEvent where
  | skip
  | incOut
  | incIn
deriving Repr, DecidableEq

/-- `np.mean` of a list of integer y-coordinates, as an exact rational
(worker.py line 360). -/
def meanY (ys : List ℤ) : ℚ :=
  (ys.map (fun y => (y : ℚ))).sum / (ys.length : ℚ)

/-- The per-object update of `count_people` (worker.py lines 358-393) for an
object that already exists in `trackableObjects`: compute
`direction = centroid[1] - np.mean(y)` over the previous centroids, append
the new centroid, and, only while `counted` is false, fire the OUT branch
(`direction < 0 and centroid[1] < H // 2`) or else the IN branch
(`direction > 0 and centroid[1] > H // 2`), setting `counted = True` in
either branch. -/
def updateObject (H : ℕ) (tob : TrackableObject) (centroid : ℤ × ℤ) :
    TrackableObject × CountEvent :=
  let ys := tob.centroids.map Prod.snd
  let direction : ℚ := (centroid.2 : ℚ) - meanY ys
  let to1 : TrackableObject := { tob with centroids := tob.centroids ++ [centroid] }
  if tob.counted then (to1, CountEvent.skip)
  else if direction < 0 ∧ centroid.2 < ((H / 2 : ℕ) : ℤ) then
    ({ to1 with counted := true }, CountEvent.incOut)
  else if direction > 0 ∧ centroid.2 > ((H / 2 : ℕ) : ℤ) then
    ({ to1 with counted := true }, CountEvent.incIn)
  else (to1, CountEvent.skip)

/-- One step of the single-identity view of the counting loop: feed one new
centroid to `updateObject` and accumulate the IN/OUT increments this identity
contributed so far. -/
def objectStep (H : ℕ) (acc : TrackableObject × ℕ × ℕ) (c : ℤ × ℤ) :
    TrackableObject × ℕ × ℕ :=
  let r := updateObject H acc.1 c
  match r.2 with
  | CountEvent.incIn => (r.1, acc.2.1 + 1, acc.2.2)
  | CountEvent.incOut => (r.1, acc.2.1, acc.2.2 + 1)
  | CountEvent.skip => (r.1, acc.2.1, acc.2.2)

/-- The whole lifetime of one identity inside one run of `count_people`:
it is created from its first centroid (`TrackableObject(objectID, centroid)`,
which never counts) and then receives the remaining centroids one frame at a
time.  Returns the final object together with the total IN and OUT increments
it contributed. -/
def runObject (H : ℕ) (objectID : ℕ) (c0 : ℤ × ℤ) (cs : List (ℤ × ℤ)) :
    TrackableObject × ℕ × ℕ :=
  cs.foldl (objectStep H) (TrackableObject.init objectID c0, 0, 0)

theorem updateObject_cases (H : ℕ) (tob : TrackableObject) (c : ℤ × ℤ) :
    ((updateObject H tob c).2 = CountEvent.skip ∧
      (updateObject H tob c).1.counted = tob.counted) ∨
    (tob.counted = false ∧ (updateObject H tob c).1.counted = true ∧
      (updateObject H tob c).2 ≠ CountEvent.skip) := by
  unfold updateObject
  by_cases h : tob.counted
  · simp [h]
  · simp only [h, if_false, Bool.false_eq_true]
    split
    · right
      simp [h]
    · split
      · right
        simp [h]
      · left
        simp [h]

theorem objectStep_fold_le (H : ℕ) (cs : List (ℤ × ℤ)) (tob : TrackableObject)
    (a b : ℕ) :
    (cs.foldl (objectStep H) (tob, a, b)).2.1 +
        (cs.foldl (objectStep H) (tob, a, b)).2.2 ≤
      a + b + (if tob.counted then 0 else 1) := by
  induction cs generalizing tob a b with
  | nil =>
    simp only [List.foldl_nil]
    cases h : tob.counted <;> simp
  | cons c cs ih =>
    simp only [List.foldl_cons]
    rcases updateObject_cases H tob c with ⟨hev, hcnt⟩ | ⟨hto, hcnt, hev⟩
    · have hstep : objectStep H (tob, a, b) c = ((updateObject H tob c).1, a, b) := by
        simp [objectStep, hev]
      rw [hstep]
      calc (cs.foldl (objectStep H) ((updateObject H tob c).1, a, b)).2.1 +
              (cs.foldl (objectStep H) ((updateObject H tob c).1, a, b)).2.2
          ≤ a + b + (if (updateObject H tob c).1.counted then 0 else 1) :=
            ih (updateObject H tob c).1 a b
        _ = a + b + (if tob.counted then 0 else 1) := by rw [hcnt]
    · have hle : ∀ a' b', a' + b' = a + b + 1 →
          (cs.foldl (objectStep H) ((updateObject H tob c).1, a', b')).2.1 +
              (cs.foldl (objectStep H) ((updateObject H tob c).1, a', b')).2.2 ≤
            a + b + 1 := by
        intro a' b' hab
        have h2 := ih (updateObject H tob c).1 a' b'
        rw [hcnt] at h2
        simpa [hab] using h2
      have hgoal : a + b + 1 ≤ a + b + (if tob.counted then 0 else 1) := by
        rw [hto]; simp
      refine le_trans ?_ hgoal
      cases hev2 : (updateObject H tob c).2 with
      | skip => exact absurd hev2 hev
      | incIn =>
        have hstep : objectStep H (tob, a, b) c = ((updateObject H tob c).1, a + 1, b) := by
          simp [objectStep, hev2]
        rw [hstep]
        exact hle (a + 1) b (by omega)
      | incOut =>
        have hstep : objectStep H (tob, a, b) c = ((updateObject H tob c).1, a, b + 1) := by
          simp [objectStep, hev2]
        rw [hstep]
        exact hle a (b + 1) (by omega)

/-- C1: over the whole lifetime of one identity inside one run of
`count_people`, the total number of increments that identity contributes to
`total_in + total_out` is 0 or 1, never more: the counting branch runs only
while `counted` is false, each counting branch sets `counted` to true, and
the flag is never reset. -/
theorem counted_at_most_once (H objectID : ℕ) (c0 : ℤ × ℤ)
    (cs : List (ℤ × ℤ)) :
    (runObject H objectID c0 cs).2.1 + (runObject H objectID c0 cs).2.2 ≤ 1 := by
  have h := objectStep_fold_le H cs (TrackableObject.init objectID c0) 0 0
  simpa [runObject, TrackableObject.init] using h

/-- C3: for a tracked identity with at least one previous centroid and
`counted` still false, the frame where centroid `c` arrives computes
`direction = c.2 - mean(previous centroid ys)`; if `direction < 0` and `c.2`
is above the midline (`c.2 < H // 2`) it fires an OUT event (`totalUp`) and
sets `counted`; if `direction > 0` and `c.2 > H // 2` it fires an IN event
(`totalDown`) and sets `counted`; otherwise nothing is counted.  On the
centroid y-sequence [300, 290, 260, 240] with midline 250 the identity is
counted as exactly one OUT event. -/
theorem counting_rule (H : ℕ) (tob : TrackableObject) (c : ℤ × ℤ)
    (hcnt : tob.counted = false) :
    (((c.2 : ℚ) - meanY (tob.centroids.map Prod.snd) < 0 ∧ c.2 < ((H / 2 : ℕ) : ℤ)) →
        updateObject H tob c =
          ({ tob with centroids := tob.centroids ++ [c], counted := true },
            CountEvent.incOut)) ∧
    (((c.2 : ℚ) - meanY (tob.centroids.map Prod.snd) > 0 ∧ c.2 > ((H / 2 : ℕ) : ℤ)) →
        updateObject H tob c =
          ({ tob with centroids := tob.centroids ++ [c], counted := true },
            CountEvent.incIn)) ∧
    ((¬ ((c.2 : ℚ) - meanY (tob.centroids.map Prod.snd) < 0 ∧ c.2 < ((H / 2 : ℕ) : ℤ)) ∧
      ¬ ((c.2 : ℚ) - meanY (tob.centroids.map Prod.snd) > 0 ∧ c.2 > ((H / 2 : ℕ) : ℤ))) →
        updateObject H tob c =
          ({ tob with centroids := tob.centroids ++ [c] }, CountEvent.skip)) ∧
    runObject 500 7 (100, 300) [(100, 290), (100, 260), (100, 240)] =
      ({ objectID := 7,
         centroids := [(100, 300), (100, 290), (100, 260), (100, 240)],
         counted := true }, 0, 1) := by
  refine ⟨?_, ?_, ?_, ?_⟩
  · intro hout
    simp only [updateObject]
    rw [if_neg (by simp [hcnt]), if_pos hout]
  · intro hin
    have hnout : ¬ ((c.2 : ℚ) - meanY (tob.centroids.map Prod.snd) < 0 ∧
        c.2 < ((H / 2 : ℕ) : ℤ)) := by
      intro h
      exact absurd hin.1 (not_lt.mpr (le_of_lt h.1))
    simp only [updateObject]
    rw [if_neg (by simp [hcnt]), if_neg hnout, if_pos hin]
  · intro h
    simp only [updateObject]
    rw [if_neg (by simp [hcnt]), if_neg h.1, if_neg h.2]
  · norm_num [runObject, objectStep, updateObject, meanY, TrackableObject.init]

theorem counting_rule_witness :
    (TrackableObject.mk 7 [(100, 300)] false).counted = false ∧
    runObject 500 7 (100, 300) [(100, 290), (100, 260), (100, 240)] =
      ({ objectID := 7,
         centroids := [(100, 300), (100, 290), (100, 260), (100, 240)],
         counted := true }, 0, 1) :=
  ⟨rfl, (counting_rule 500 ⟨7, [(100, 300)], false⟩ (100, 240) rfl).2.2.2⟩

/-- The result dictionaries sent by `PeopleCounterWorker.send_result`
(worker.py lines 417-428 and 446-458) and stored by the `ResultHandler`.
Fields carried by every record the claims mention; `fps` and `elapsed_time`
are wall-clock measurements and are not modelled.  `timestamp` is `none`
until `ResultHandler.add_result` stamps the record. -/
structure ResultRecord where
  worker_id : String
  task_id : String
  total_in : ℕ
  total_out : ℕ
  current_count : ℤ
  status : String
  frame_count : ℕ
  timestamp : Option String
deriving Repr, DecidableEq

/-- The mutable state of one `count_people` run (worker.py lines 221-236):
the `trackableObjects` dictionary (association list in insertion order) and
the counting variables.  `total` is the alert-logic list (lines 231,
391-392). -/
structure CountState where
  trackableObjects : List (ℕ × TrackableObject)
  totalDown : ℕ
  totalUp : ℕ
  move_in : List ℕ
  move_out : List ℕ
  total : List ℤ
  totalFrames : ℕ
deriving Repr, DecidableEq

/-- Initial counting state (worker.py lines 224-235). -/
def CountState.init : CountState :=
  { trackableObjects := [], totalDown := 0, totalUp := 0,
    move_in := [], move_out := [], total := [], totalFrames := 0 }

/-- `trackableObjects.get(objectID, None)` on the association list. -/
def lookupTO (m : List (ℕ × TrackableObject)) (k : ℕ) : Option TrackableObject :=
  (m.find? (fun p => p.1 == k)).map Prod.snd

/-- `trackableObjects[objectID] = to`: dictionary write preserving Python's
insertion order (update in place if present, append otherwise). -/
def setTO (m : List (ℕ × TrackableObject)) (k : ℕ) (v : TrackableObject) :
    List (ℕ × TrackableObject) :=
  if m.any (fun p => p.1 == k) then m.map (fun p => if p.1 == k then (k, v) else p)
  else m ++ [(k, v)]

/-- Body of the `for (objectID, centroid) in objects.items()` loop of
`count_people` (worker.py lines 353-395): first sighting creates a fresh
`TrackableObject`; otherwise `updateObject` runs the counting branch, an OUT
event appends `totalUp + 1` to `move_out`, and an IN event appends
`totalDown + 1` to `move_in` and rebuilds the one-element `total` list
(lines 391-392). -/
def stepObject (H : ℕ) (s : CountState) (objectID : ℕ) (centroid : ℤ × ℤ) :
    CountState :=
  match lookupTO s.trackableObjects objectID with
  | none =>
      { s with trackableObjects :=
          setTO s.trackableObjects objectID (TrackableObject.init objectID centroid) }
  | some tob =>
      match updateObject H tob centroid with
      | (tob1, CountEvent.incOut) =>
          { s with
            totalUp := s.totalUp + 1,
            move_out := s.move_out ++ [s.totalUp + 1],
            trackableObjects := setTO s.trackableObjects objectID tob1 }
      | (tob1, CountEvent.incIn) =>
          { s with
            totalDown := s.totalDown + 1,
            move_in := s.move_in ++ [s.totalDown + 1],
            total := [((s.move_in ++ [s.totalDown + 1]).length : ℤ) -
              (s.move_out.length : ℤ)],
            trackableObjects := setTO s.trackableObjects objectID tob1 }
      | (tob1, CountEvent.skip) =>
          { s with trackableObjects := setTO s.trackableObjects objectID tob1 }

/-- One iteration of the `while True` loop of `count_people` for a frame that
was read successfully (worker.py lines 281-428): the rectangles the centroid
tracker produced for this frame arrive as `objects`; after the object loop,
`totalFrames` is incremented, `total_inside = len(move_in) - len(move_out)`
is computed, and every 10th frame a periodic result record is sent.  The
`status` string follows lines 282-329: "Detecting" on detection frames,
"Tracking" otherwise. -/
def frameStep (H skip_frames : ℕ) (wid tid : String) (s : CountState)
    (objects : List (ℕ × (ℤ × ℤ))) : CountState × Option ResultRecord :=
  let status := if s.totalFrames % skip_frames = 0 then "Detecting" else "Tracking"
  let s1 : CountState := objects.foldl (fun st oc => stepObject H st oc.1 oc.2) s
  let s2 : CountState := { s1 with totalFrames := s1.totalFrames + 1 }
  let total_inside : ℤ := (s2.move_in.length : ℤ) - (s2.move_out.length : ℤ)
  if s2.totalFrames % 10 = 0 then
    (s2, some { worker_id := wid, task_id := tid, total_in := s2.totalDown,
                total_out := s2.totalUp, current_count := total_inside,
                status := status, frame_count := s2.totalFrames, timestamp := none })
  else (s2, none)

/-- What the stream delivers on one iteration of the frame loop: either the
per-frame identity-to-centroid mapping obtained from `ct.update(rects)`, or
an exception raised somewhere in the body (e.g. a failed read or resize). -/
inductive FrameInput where
  | frame (objects : List (ℕ × (ℤ × ℤ)))
  | exception (msg : String)
deriving Repr, DecidableEq

/-- The `while True` loop of `count_people` inside its `try` (worker.py
lines 252-428): frames are processed until the input ends or an exception is
raised; the `except` branch (lines 430-431) only logs, so the loop's partial
output survives into the `finally` block. -/
def countLoop (H skip_frames : ℕ) (wid tid : String) :
    CountState → List ResultRecord → List FrameInput →
      CountState × List ResultRecord
  | s, recs, [] => (s, recs)
  | s, recs, FrameInput.exception _ :: _ => (s, recs)
  | s, recs, FrameInput.frame objs :: rest =>
      let r := frameStep H skip_frames wid tid s objs
      countLoop H skip_frames wid tid r.1 (recs ++ r.2.toList) rest

/-- `count_people` (worker.py lines 196-460): run the frame loop, then the
`finally` block (lines 433-458) sends one final result record whose `status`
is the literal string "completed" — also when the loop was ended by an
exception. -/
def count_people (H skip_frames : ℕ) (wid tid : String)
    (inputs : List FrameInput) : List ResultRecord :=
  let r := countLoop H skip_frames wid tid CountState.init [] inputs
  r.2 ++ [{ worker_id := wid, task_id := tid, total_in := r.1.totalDown,
            total_out := r.1.totalUp,
            current_count := (r.1.move_in.length : ℤ) - (r.1.move_out.length : ℤ),
            status := "completed", frame_count := r.1.totalFrames,
            timestamp := none }]

/-- `process_camera` (worker.py lines 119-161): if initialising the video
stream raises, the `except` branch logs and returns — `count_people` is never
reached and no result record is emitted for the task. -/
def process_camera (H skip_frames : ℕ) (wid tid : String) (openOk : Bool)
    (inputs : List FrameInput) : List ResultRecord :=
  if openOk then count_people H skip_frames wid tid inputs else []

/-- The lockstep invariant of the counting variables: `totalDown` counts the
IN events recorded in `move_in`, `totalUp` the OUT events in `move_out`. -/
def countsInv (s : CountState) : Prop :=
  s.totalDown = s.move_in.length ∧ s.totalUp = s.move_out.length

/-- A result record whose `current_count` agrees with
`total_in - total_out`. -/
def recOK (r : ResultRecord) : Prop :=
  r.current_count = (r.total_in : ℤ) - (r.total_out : ℤ)

theorem stepObject_countsInv (H : ℕ) (s : CountState) (k : ℕ) (c : ℤ × ℤ)
    (h : countsInv s) : countsInv (stepObject H s k c) := by
  obtain ⟨h1, h2⟩ := h
  unfold stepObject
  split
  · exact ⟨h1, h2⟩
  · split
    · exact ⟨h1, by simp [h2]⟩
    · exact ⟨by simp [h1], h2⟩
    · exact ⟨h1, h2⟩

theorem foldObjects_countsInv (H : ℕ) (objs : List (ℕ × (ℤ × ℤ)))
    (s : CountState) (h : countsInv s) :
    countsInv (objs.foldl (fun st oc => stepObject H st oc.1 oc.2) s) := by
  induction objs generalizing s with
  | nil => exact h
  | cons o os ih => exact ih _ (stepObject_countsInv H s o.1 o.2 h)

theorem frameStep_spec (H sf : ℕ) (wid tid : String) (s : CountState)
    (objs : List (ℕ × (ℤ × ℤ))) (h : countsInv s) :
    countsInv (frameStep H sf wid tid s objs).1 ∧
      ∀ r ∈ (frameStep H sf wid tid s objs).2.toList, recOK r := by
  have h1 := foldObjects_countsInv H objs s h
  simp only [frameStep]
  split
  · refine ⟨⟨h1.1, h1.2⟩, ?_⟩
    intro r hr
    simp only [Option.toList_some, List.mem_singleton] at hr
    subst hr
    show (_ : ℤ) - _ = _
    rw [h1.1, h1.2]
  · exact ⟨⟨h1.1, h1.2⟩, by intro r hr; simp at hr⟩

theorem countLoop_spec (H sf : ℕ) (wid tid : String)
    (inputs : List FrameInput) (s : CountState) (recs : List ResultRecord)
    (hs : countsInv s) (hr : ∀ r ∈ recs, recOK r) :
    countsInv (countLoop H sf wid tid s recs inputs).1 ∧
      ∀ r ∈ (countLoop H sf wid tid s recs inputs).2, recOK r := by
  induction inputs generalizing s recs with
  | nil => exact ⟨hs, hr⟩
  | cons i rest ih =>
    cases i with
    | exception m => exact ⟨hs, hr⟩
    | frame objs =>
      have hf := frameStep_spec H sf wid tid s objs hs
      simp only [countLoop]
      refine ih (frameStep H sf wid tid s objs).1
        (recs ++ (frameStep H sf wid tid s objs).2.toList) hf.1 ?_
      intro r hmem
      rcases List.mem_append.mp hmem with hmem | hmem
      · exact hr r hmem
      · exact hf.2 r hmem

/-- C9: every result record `count_people` emits — the periodic records sent
every 10 frames and the final record of the `finally` block — satisfies
`current_count = total_in - total_out` (with `total_in = len(move_in)` and
`total_out = len(move_out)`, one list entry appended per counted event);
`current_count` is never an independent counter. -/
theorem current_count_consistent (H sf : ℕ) (wid tid : String)
    (inputs : List FrameInput) (r : ResultRecord)
    (hr : r ∈ count_people H sf wid tid inputs) :
    r.current_count = (r.total_in : ℤ) - (r.total_out : ℤ) := by
  have h := countLoop_spec H sf wid tid inputs CountState.init []
    ⟨rfl, rfl⟩ (by intro r hmem; simp at hmem)
  simp only [count_people] at hr
  rcases List.mem_append.mp hr with hmem | hmem
  · exact h.2 r hmem
  · rw [List.mem_singleton.mp hmem]
    show (_ : ℤ) - _ = _
    rw [h.1.1, h.1.2]

theorem current_count_consistent_witness :
    ({ worker_id := "w1", task_id := "t1", total_in := 0, total_out := 0,
       current_count := 0, status := "completed", frame_count := 10,
       timestamp := none } : ResultRecord) ∈
        count_people 500 30 "w1" "t1" (List.replicate 10 (FrameInput.frame [])) ∧
      (0 : ℤ) = ((0 : ℕ) : ℤ) - ((0 : ℕ) : ℤ) := by
  refine ⟨by decide, ?_⟩
  exact current_count_consistent 500 30 "w1" "t1"
    (List.replicate 10 (FrameInput.frame []))
    { worker_id := "w1", task_id := "t1", total_in := 0, total_out := 0,
      current_count := 0, status := "completed", frame_count := 10,
      timestamp := none } (by decide)

/-- C5 counterexample: on a task whose first frame-loop iteration raises an
exception, the worker still emits exactly one terminal record, but its status
is "completed", not "error" — refuting that a failed task never ends with
`status = completed`. -/
theorem error_status_counterexample :
    (count_people 500 30 "w1" "t1" [FrameInput.exception "read failed"]).map
        ResultRecord.status = ["completed"] := by decide

/-- C5 amended: whenever `count_people` runs — also when the frame loop was
ended by an exception — the worker emits a terminal result record, but that
record's status is the literal "completed", never "error"; and when the
source fails to open, `process_camera` returns without emitting any record at
all. -/
theorem terminal_record_amended (H sf : ℕ) (wid tid : String)
    (inputs : List FrameInput) :
    ((count_people H sf wid tid inputs).getLast?).map ResultRecord.status =
        some "completed" ∧
      count_people H sf wid tid inputs ≠ [] ∧
      process_camera H sf wid tid false inputs = [] := by
  refine ⟨?_, ?_, rfl⟩
  · simp only [count_people]
    rw [List.getLast?_concat]
    rfl
  · simp [count_people]

/-- A task dictionary built by `ParallelPeopleCounter.add_camera` /
`add_video` (parallel_people_counter.py lines 126-136 and 175-185).
`device_id` holds the value of the `camera_id` (resp. `video_id`) key. -/
structure Task where
  task_id : String
  type : String
  device_id : String
  source : String
  aliasName : String
  threshold : ℕ
  priority : ℕ
  status : String
deriving Repr, DecidableEq

/-- The orchestrator state touched by `add_camera` / `add_video`
(parallel_people_counter.py lines 50-70): the task queue (as the list of
queued tasks in order), the `added_sources` set (as the list of its elements
in insertion order; elements are inserted only after a negative membership
test, so the list never repeats a source), and `stats['total_tasks']`. -/
structure ParallelPeopleCounter where
  task_queue : List Task
  added_sources : List String
  total_tasks : ℕ
deriving Repr, DecidableEq

/-- `add_camera` (parallel_people_counter.py lines 94-141): a source already
in `added_sources` is logged and skipped — the method returns with the state
unchanged.  Otherwise the defaults are filled (`tnow` stands for
`int(time.time())`), the task is enqueued, the source recorded and
`total_tasks` incremented. -/
def add_camera (st : ParallelPeopleCounter) (source : String)
    (camera_id aliasName : Option String) (threshold priority : ℕ) (tnow : ℕ) :
    ParallelPeopleCounter :=
  if source ∈ st.added_sources then st
  else
    let cid := camera_id.getD ("camera_" ++ toString tnow)
    let al := aliasName.getD cid
    { task_queue := st.task_queue ++
        [{ task_id := "camera_" ++ cid, type := "camera", device_id := cid,
           source := source, aliasName := al, threshold := threshold,
           priority := priority, status := "pending" }],
      added_sources := st.added_sources ++ [source],
      total_tasks := st.total_tasks + 1 }

/-- `add_video` (parallel_people_counter.py lines 143-190): same shape as
`add_camera` with the `video_` prefixes. -/
def add_video (st : ParallelPeopleCounter) (video_path : String)
    (video_id aliasName : Option String) (threshold priority : ℕ) (tnow : ℕ) :
    ParallelPeopleCounter :=
  if video_path ∈ st.added_sources then st
  else
    let vid := video_id.getD ("video_" ++ toString tnow)
    let al := aliasName.getD vid
    { task_queue := st.task_queue ++
        [{ task_id := "video_" ++ vid, type := "video", device_id := vid,
           source := video_path, aliasName := al, threshold := threshold,
           priority := priority, status := "pending" }],
      added_sources := st.added_sources ++ [video_path],
      total_tasks := st.total_tasks + 1 }

/-- C2: calling `add_camera` (or `add_video`) with a source that is already
in `added_sources` enqueues nothing, leaves the queue, the source set and
`total_tasks` unchanged, and does not raise; consequently submitting the same
fresh source twice enqueues exactly one task and bumps `total_tasks` exactly
once. -/
theorem duplicate_source_rejected (st st0 : ParallelPeopleCounter)
    (s : String) (cid al cid2 al2 : Option String)
    (th pr th2 pr2 tn tn2 : ℕ)
    (hdup : s ∈ st.added_sources) (hnew : s ∉ st0.added_sources) :
    add_camera st s cid al th pr tn = st ∧
      add_video st s cid2 al2 th2 pr2 tn2 = st ∧
      (add_camera (add_camera st0 s cid al th pr tn) s cid2 al2 th2 pr2
          tn2).task_queue.length = st0.task_queue.length + 1 ∧
      (add_camera (add_camera st0 s cid al th pr tn) s cid2 al2 th2 pr2
          tn2).total_tasks = st0.total_tasks + 1 := by
  have hmem : s ∈ (add_camera st0 s cid al th pr tn).added_sources := by
    simp [add_camera, hnew]
  have hsecond : add_camera (add_camera st0 s cid al th pr tn) s cid2 al2
      th2 pr2 tn2 = add_camera st0 s cid al th pr tn := by
    simp [add_camera, hmem]
    intro hcontra
    exact absurd hmem hcontra
  refine ⟨by simp [add_camera, hdup], by simp [add_video, hdup], ?_, ?_⟩
  · rw [hsecond]
    simp [add_camera, hnew]
  · rw [hsecond]
    simp [add_camera, hnew]

theorem duplicate_source_rejected_witness :
    ("rtsp-cam1" ∈ (["rtsp-cam1"] : List String) ∧
        "rtsp-cam1" ∉ ([] : List String)) ∧
      (add_camera (add_camera ⟨[], [], 0⟩ "rtsp-cam1" none none 10 1 0)
          "rtsp-cam1" none none 10 1 0).task_queue.length = 0 + 1 := by
  refine ⟨⟨by decide, by decide⟩, ?_⟩
  exact (duplicate_source_rejected ⟨[], ["rtsp-cam1"], 1⟩ ⟨[], [], 0⟩
    "rtsp-cam1" none none none none 10 1 10 1 0 0 (by decide) (by decide)).2.2.1

/-- The `ResultHandler.results` dictionary (result_handler.py line 31):
per-task ordered histories of result records, as an association list in
key-insertion order. -/
abbrev ResultStore := List (String × List ResultRecord)

/-- `results.get(task_id, ...)` on the store: the value at the (unique)
entry for the key. -/
def storeLookup : ResultStore → String → Option (List ResultRecord)
  | [], _ => none
  | p :: rest, k => if p.1 = k then some p.2 else storeLookup rest k

/-- Dictionary write on the store, preserving Python's insertion order:
update the entry in place if the key is present, append otherwise. -/
def storeSet : ResultStore → String → List ResultRecord → ResultStore
  | [], k, v => [(k, v)]
  | p :: rest, k, v =>
      if p.1 = k then (k, v) :: rest else p :: storeSet rest k v

/-- `ResultHandler.add_result` (result_handler.py lines 47-64): create an
empty history when the task is new, stamp `result['timestamp']` (the wall
clock passed as `ts`), and append the record to the task's history.  Nothing
else is touched. -/
def add_result (rs : ResultStore) (task_id : String) (r : ResultRecord)
    (ts : String) : ResultStore :=
  storeSet rs task_id
    ((storeLookup rs task_id).getD [] ++ [{ r with timestamp := some ts }])

theorem storeLookup_storeSet_self (rs : ResultStore) (k : String)
    (v : List ResultRecord) : storeLookup (storeSet rs k v) k = some v := by
  induction rs with
  | nil => simp [storeSet, storeLookup]
  | cons p rest ih =>
    by_cases hp : p.1 = k <;> simp [storeSet, storeLookup, hp, ih]

theorem storeLookup_storeSet_other (rs : ResultStore) (k k' : String)
    (v : List ResultRecord) (hne : k' ≠ k) :
    storeLookup (storeSet rs k v) k' = storeLookup rs k' := by
  induction rs with
  | nil => simp [storeSet, storeLookup, Ne.symm hne]
  | cons p rest ih =>
    by_cases hp : p.1 = k
    · have hp' : p.1 ≠ k' := by
        rw [hp]
        exact Ne.symm hne
      simp [storeSet, storeLookup, hp, hp', Ne.symm hne]
    · by_cases hp' : p.1 = k' <;> simp [storeSet, storeLookup, hp, hp', hne, ih]

/-- C10: after `add_result(task_id, r)` the history of `task_id` equals its
old history (empty if the task was new) with exactly the timestamped record
appended, and the history of every other task is unchanged — no stored record
is mutated or removed. -/
theorem add_result_appends (rs : ResultStore) (task_id : String)
    (r : ResultRecord) (ts : String) (other : String)
    (hother : other ≠ task_id) :
    storeLookup (add_result rs task_id r ts) task_id =
        some ((storeLookup rs task_id).getD [] ++
          [{ r with timestamp := some ts }]) ∧
      storeLookup (add_result rs task_id r ts) other = storeLookup rs other := by
  exact ⟨storeLookup_storeSet_self rs task_id _,
    storeLookup_storeSet_other rs task_id other _ hother⟩

theorem add_result_appends_witness :
    ("other_task" : String) ≠ "camera_1" ∧
      storeLookup
          (add_result [] "camera_1"
            { worker_id := "w1", task_id := "camera_1", total_in := 2,
              total_out := 1, current_count := 1, status := "completed",
              frame_count := 40, timestamp := none } "2025-01-01") "camera_1" =
        some [{ worker_id := "w1", task_id := "camera_1", total_in := 2,
                total_out := 1, current_count := 1, status := "completed",
                frame_count := 40, timestamp := some "2025-01-01" }] :=
  ⟨by decide,
    (add_result_appends [] "camera_1"
      { worker_id := "w1", task_id := "camera_1", total_in := 2,
        total_out := 1, current_count := 1, status := "completed",
        frame_count := 40, timestamp := none } "2025-01-01" "other_task"
      (by decide)).1⟩

/-- Per-task slice of `get_summary` (result_handler.py lines 105-113);
`latest_fps` is a float measurement and is not modelled. -/
structure TaskSummary where
  total_in : ℕ
  total_out : ℕ
  current_count : ℤ
  status : String
  last_update : String
  total_updates : ℕ
deriving Repr, DecidableEq

/-- The dictionary returned by `ResultHandler.get_summary`. -/
structure Summary where
  total_tasks : ℕ
  tasks : List (String × TaskSummary)
  overall_in : ℕ
  overall_out : ℕ
  net_count : ℤ
deriving Repr, DecidableEq

/-- One iteration of the `for task_id, results in self.results.items()` loop
of `get_summary` (result_handler.py lines 97-118): empty histories are
skipped, otherwise the latest (last appended) record contributes one task
summary and its `total_in` / `total_out` to the running totals. -/
def summaryStep (acc : List (String × TaskSummary) × ℕ × ℕ)
    (p : String × List ResultRecord) :
    List (String × TaskSummary) × ℕ × ℕ :=
  match p.2.getLast? with
  | none => acc
  | some latest =>
      (acc.1 ++ [(p.1,
         { total_in := latest.total_in, total_out := latest.total_out,
           current_count := latest.current_count, status := latest.status,
           last_update := latest.timestamp.getD "",
           total_updates := p.2.length })],
       acc.2.1 + latest.total_in, acc.2.2 + latest.total_out)

/-- `ResultHandler.get_summary` (result_handler.py lines 81-126): recompute
the overall totals from scratch on every call, folding over each task's
latest record only; `net_count = total_in_all - total_out_all`. -/
def get_summary (rs : ResultStore) : Summary :=
  let acc := rs.foldl summaryStep ([], 0, 0)
  { total_tasks := rs.length, tasks := acc.1,
    overall_in := acc.2.1, overall_out := acc.2.2,
    net_count := (acc.2.1 : ℤ) - (acc.2.2 : ℤ) }

theorem summaryStep_fold (rs : ResultStore)
    (acc : List (String × TaskSummary) × ℕ × ℕ) :
    (rs.foldl summaryStep acc).2.1 =
        acc.2.1 + ((rs.filterMap (fun p => p.2.getLast?)).map
          ResultRecord.total_in).sum ∧
      (rs.foldl summaryStep acc).2.2 =
        acc.2.2 + ((rs.filterMap (fun p => p.2.getLast?)).map
          ResultRecord.total_out).sum := by
  induction rs generalizing acc with
  | nil => simp
  | cons p rest ih =>
    cases hl : p.2.getLast? with
    | none =>
      have hstep : summaryStep acc p = acc := by simp [summaryStep, hl]
      simp [List.foldl_cons, hstep, List.filterMap_cons, hl, ih]
    | some latest =>
      have hstep : (summaryStep acc p).2 =
          (acc.2.1 + latest.total_in, acc.2.2 + latest.total_out) := by
        simp [summaryStep, hl]
      obtain ⟨ih1, ih2⟩ := ih (summaryStep acc p)
      rw [List.foldl_cons] at *
      rw [ih1, ih2, hstep]
      simp [List.filterMap_cons, hl]
      omega

/-- C4: `get_summary` recomputes its output from scratch:
`overall.total_in` is the sum of the latest record's `total_in` over the
tasks with at least one recorded result (likewise `total_out`), `net_count`
is their difference, and the overall totals agree for any two stores whose
per-task latest records coincide up to arrival order — no incrementally
accumulated counter is involved. -/
theorem summary_recomputed (rs rs2 : ResultStore)
    (hperm : (rs.map (fun p => (p.1, p.2.getLast?))).Perm
      (rs2.map (fun p => (p.1, p.2.getLast?)))) :
    (get_summary rs).overall_in =
        ((rs.filterMap (fun p => p.2.getLast?)).map ResultRecord.total_in).sum ∧
      (get_summary rs).overall_out =
        ((rs.filterMap (fun p => p.2.getLast?)).map ResultRecord.total_out).sum ∧
      (get_summary rs).net_count =
        ((get_summary rs).overall_in : ℤ) - ((get_summary rs).overall_out : ℤ) ∧
      (get_summary rs).overall_in = (get_summary rs2).overall_in ∧
      (get_summary rs).overall_out = (get_summary rs2).overall_out := by
  have h1 := summaryStep_fold rs ([], 0, 0)
  have h2 := summaryStep_fold rs2 ([], 0, 0)
  have hkey : (rs.filterMap (fun p => p.2.getLast?)).Perm
      (rs2.filterMap (fun p => p.2.getLast?)) := by
    have h3 := hperm.filterMap (fun q => q.2)
    simpa [List.filterMap_map, Function.comp] using h3
  refine ⟨by simpa using h1.1, by simpa using h1.2, rfl, ?_, ?_⟩
  · have hsum := ((hkey.map ResultRecord.total_in)).sum_eq
    show (rs.foldl summaryStep ([], 0, 0)).2.1 =
      (rs2.foldl summaryStep ([], 0, 0)).2.1
    rw [h1.1, h2.1, hsum]
  · have hsum := ((hkey.map ResultRecord.total_out)).sum_eq
    show (rs.foldl summaryStep ([], 0, 0)).2.2 =
      (rs2.foldl summaryStep ([], 0, 0)).2.2
    rw [h1.2, h2.2, hsum]

theorem summary_recomputed_witness :
    ((([("a", [(⟨"w1", "a", 3, 1, 2, "completed", 50, none⟩ : ResultRecord)]),
        ("b", [(⟨"w2", "b", 4, 2, 2, "completed", 60, none⟩ : ResultRecord)])] :
          ResultStore).map (fun p => (p.1, p.2.getLast?))).Perm
      (([("b", [(⟨"w2", "b", 4, 2, 2, "completed", 60, none⟩ : ResultRecord)]),
        ("a", [(⟨"w1", "a", 3, 1, 2, "completed", 50, none⟩ : ResultRecord)])] :
          ResultStore).map (fun p => (p.1, p.2.getLast?)))) ∧
      (get_summary
          [("a", [⟨"w1", "a", 3, 1, 2, "completed", 50, none⟩]),
           ("b", [⟨"w2", "b", 4, 2, 2, "completed", 60, none⟩])]).overall_in =
        (get_summary
          [("b", [⟨"w2", "b", 4, 2, 2, "completed", 60, none⟩]),
           ("a", [⟨"w1", "a", 3, 1, 2, "completed", 50, none⟩])]).overall_in := by
  refine ⟨by simp; exact List.Perm.swap _ _ _, ?_⟩
  exact (summary_recomputed _ _ (by simp; exact List.Perm.swap _ _ _)).2.2.2.1

/-- A value read from the detector output, with the IEEE distinctions the
detect-phase checks care about: an exact finite rational, NaN, or a signed
infinity. -/
inductive FVal where
  | fin (q : ℚ)
  | nan
  | inf (pos : Bool)
deriving Repr, DecidableEq

/-- `np.isnan` on one value (worker.py line 310). -/
def FVal.isnan : FVal → Bool
  | FVal.nan => true
  | _ => false

/-- `np.isinf` on one value (worker.py line 310). -/
def FVal.isinf : FVal → Bool
  | FVal.inf _ => true
  | _ => false

/-- `np.clip(x, -999999, 999999)` on one value (worker.py line 314): finite
values clamp to the bounds, infinities clamp to the corresponding bound, NaN
propagates.  In the accepting path it is only reached after the NaN/Inf
check. -/
def FVal.clip : FVal → FVal
  | FVal.fin q => FVal.fin (max (-999999) (min 999999 q))
  | FVal.nan => FVal.nan
  | FVal.inf b => if b then FVal.fin 999999 else FVal.fin (-999999)

/-- Python `int()` of a float value (worker.py line 315): truncation toward
zero.  It is only applied to values that passed the NaN/Inf check and were
clipped; the non-finite cases are unreachable there and map to 0. -/
def FVal.toInt : FVal → ℤ
  | FVal.fin q => if 0 ≤ q then ⌊q⌋ else ⌈q⌉
  | FVal.nan => 0
  | FVal.inf _ => 0

/-- The MobileNetSSD class list (worker.py lines 216-219). -/
def CLASSES : List String :=
  ["background", "aeroplane", "bicycle", "bird", "boat",
   "bottle", "bus", "car", "cat", "chair", "cow", "diningtable",
   "dog", "horse", "motorbike", "person", "pottedplant", "sheep",
   "sofa", "train", "tvmonitor"]

/-- Python list indexing `l[i]`, including negative-index wrap-around;
`none` models the `IndexError` raised when the index is out of range. -/
def pyGet (l : List String) (i : ℤ) : Option String :=
  if 0 ≤ i then l[i.toNat]?
  else if (l.length : ℤ) + i < 0 then none
  else l[((l.length : ℤ) + i).toNat]?

/-- One detection row `detections[0, 0, i]` (worker.py lines 297-307), with
the box already scaled by `[W, H, W, H]`: `confidence` is
`detections[0,0,i,2]`, `classIdx` is `int(detections[0,0,i,1])`, and `box`
holds the four scaled corner values `startX, startY, endX, endY`. -/
structure Detection where
  confidence : ℚ
  classIdx : ℤ
  box : FVal × FVal × FVal × FVal
deriving Repr, DecidableEq

/-- The per-detection body of the detect phase (worker.py lines 297-325):
`Except.ok none` models `continue` (silent exclusion), `Except.ok (some b)`
a box accepted into the per-frame `trackers`, and `Except.error` the
`IndexError` that `CLASSES[idx]` would raise on a class index outside the
list.  The confidence test is the source's strict `confidence_score >
confidence`. -/
def accept_detection (confidence : ℚ) (d : Detection) :
    Except String (Option (ℤ × ℤ × ℤ × ℤ)) :=
  if d.confidence > confidence then
    match pyGet CLASSES d.classIdx with
    | none => Except.error "IndexError"
    | some cls =>
      if cls ≠ "person" then Except.ok none
      else if d.box.1.isnan || d.box.2.1.isnan || d.box.2.2.1.isnan ||
          d.box.2.2.2.isnan || d.box.1.isinf || d.box.2.1.isinf ||
          d.box.2.2.1.isinf || d.box.2.2.2.isinf then Except.ok none
      else if d.box.2.2.1.clip.toInt ≤ d.box.1.clip.toInt ∨
          d.box.2.2.2.clip.toInt ≤ d.box.2.1.clip.toInt ∨
          d.box.1.clip.toInt < 0 ∨ d.box.2.1.clip.toInt < 0 then
        Except.ok none
      else
        Except.ok (some (d.box.1.clip.toInt, d.box.2.1.clip.toInt,
          d.box.2.2.1.clip.toInt, d.box.2.2.2.clip.toInt))
  else Except.ok none

theorem accept_detection_cases (thr : ℚ) (d : Detection) (cls : String)
    (hcls : pyGet CLASSES d.classIdx = some cls) :
    accept_detection thr d = Except.ok none ∨
      accept_detection thr d =
        Except.ok (some (d.box.1.clip.toInt, d.box.2.1.clip.toInt,
          d.box.2.2.1.clip.toInt, d.box.2.2.2.clip.toInt)) := by
  unfold accept_detection
  rw [hcls]
  by_cases h1 : d.confidence > thr
  · by_cases h2 : cls = "person"
    · simp only [if_pos h1, h2, ne_eq, not_true_eq_false, if_false]
      split_ifs <;> simp
    · simp [h1, h2]
  · simp [h1]

theorem accept_detection_sound (thr : ℚ) (d : Detection) (cls : String)
    (hcls : pyGet CLASSES d.classIdx = some cls)
    (sx sy ex ey : ℤ)
    (heq : accept_detection thr d = Except.ok (some (sx, sy, ex, ey))) :
    cls = "person" ∧ thr ≤ d.confidence ∧
      (d.box.1.isnan = false ∧ d.box.2.1.isnan = false ∧
        d.box.2.2.1.isnan = false ∧ d.box.2.2.2.isnan = false ∧
        d.box.1.isinf = false ∧ d.box.2.1.isinf = false ∧
        d.box.2.2.1.isinf = false ∧ d.box.2.2.2.isinf = false) ∧
      (0 ≤ sx ∧ 0 ≤ sy ∧ sx < ex ∧ sy < ey) := by
  unfold accept_detection at heq
  rw [hcls] at heq
  simp only [ne_eq] at heq
  by_cases h1 : d.confidence > thr
  case neg =>
    rw [if_neg h1] at heq
    exact absurd heq (by simp)
  rw [if_pos h1] at heq
  by_cases h2 : cls = "person"
  case neg =>
    rw [if_pos h2] at heq
    exact absurd heq (by simp)
  rw [if_neg (not_not_intro h2)] at heq
  by_cases h3 : (d.box.1.isnan || d.box.2.1.isnan || d.box.2.2.1.isnan ||
      d.box.2.2.2.isnan || d.box.1.isinf || d.box.2.1.isinf ||
      d.box.2.2.1.isinf || d.box.2.2.2.isinf) = true
  case pos =>
    rw [if_pos h3] at heq
    exact absurd heq (by simp)
  rw [if_neg h3] at heq
  by_cases h4 : d.box.2.2.1.clip.toInt ≤ d.box.1.clip.toInt ∨
      d.box.2.2.2.clip.toInt ≤ d.box.2.1.clip.toInt ∨
      d.box.1.clip.toInt < 0 ∨ d.box.2.1.clip.toInt < 0
  case pos =>
    rw [if_pos h4] at heq
    exact absurd heq (by simp)
  rw [if_neg h4] at heq
  simp only [Except.ok.injEq, Option.some.injEq, Prod.mk.injEq] at heq
  obtain ⟨e1, e2, e3, e4⟩ := heq
  subst e1
  subst e2
  subst e3
  subst e4
  push_neg at h4
  simp only [Bool.or_eq_true, not_or, Bool.not_eq_true] at h3
  obtain ⟨⟨⟨⟨⟨⟨⟨n1, n2⟩, n3⟩, n4⟩, i1⟩, i2⟩, i3⟩, i4⟩ := h3
  exact ⟨h2, le_of_lt h1, ⟨n1, n2, n3, n4, i1, i2, i3, i4⟩,
    h4.2.2.1, h4.2.2.2, h4.1, h4.2.1⟩

/-- C6: in the detect phase, every bounding box accepted into the per-frame
trackers comes from a detection whose class is "person" and whose confidence
is at least the configured threshold, with finite (non-NaN, non-Inf) values
and non-negative integer corners of strictly positive width and height; any
detection (with an in-range class index) violating these conditions is
silently skipped — the result is `continue`, never an error. -/
theorem person_box_filter (thr : ℚ) (d : Detection) (cls : String)
    (hcls : pyGet CLASSES d.classIdx = some cls) :
    (∀ sx sy ex ey,
        accept_detection thr d = Except.ok (some (sx, sy, ex, ey)) →
          cls = "person" ∧ thr ≤ d.confidence ∧
            (d.box.1.isnan = false ∧ d.box.2.1.isnan = false ∧
              d.box.2.2.1.isnan = false ∧ d.box.2.2.2.isnan = false ∧
              d.box.1.isinf = false ∧ d.box.2.1.isinf = false ∧
              d.box.2.2.1.isinf = false ∧ d.box.2.2.2.isinf = false) ∧
            (0 ≤ sx ∧ 0 ≤ sy ∧ sx < ex ∧ sy < ey)) ∧
      (¬ (cls = "person" ∧ thr ≤ d.confidence ∧
            (d.box.1.isnan = false ∧ d.box.2.1.isnan = false ∧
              d.box.2.2.1.isnan = false ∧ d.box.2.2.2.isnan = false ∧
              d.box.1.isinf = false ∧ d.box.2.1.isinf = false ∧
              d.box.2.2.1.isinf = false ∧ d.box.2.2.2.isinf = false) ∧
            (0 ≤ d.box.1.clip.toInt ∧ 0 ≤ d.box.2.1.clip.toInt ∧
              d.box.1.clip.toInt < d.box.2.2.1.clip.toInt ∧
              d.box.2.1.clip.toInt < d.box.2.2.2.clip.toInt)) →
        accept_detection thr d = Except.ok none) := by
  refine ⟨fun sx sy ex ey heq =>
    accept_detection_sound thr d cls hcls sx sy ex ey heq, ?_⟩
  intro hviol
  rcases accept_detection_cases thr d cls hcls with h | h
  · exact h
  · exact absurd (accept_detection_sound thr d cls hcls _ _ _ _ h) hviol

theorem person_box_filter_witness :
    pyGet CLASSES 15 = some "person" ∧
      accept_detection (1/2)
        { confidence := 1/10, classIdx := 15,
          box := (FVal.fin 10, FVal.fin 20, FVal.fin 110, FVal.fin 220) } =
        Except.ok none := by
  refine ⟨by decide, ?_⟩
  exact (person_box_filter (1/2)
    { confidence := 1/10, classIdx := 15,
      box := (FVal.fin 10, FVal.fin 20, FVal.fin 110, FVal.fin 220) }
    "person" (by decide)).2
    (fun hc => absurd hc.2.1 (by norm_num))

/-- Modelled from the spec: `CentroidTracker` is imported by the worker from
`tracker/centroidtracker.py`, a file absent from the source tree, so the
tracker is modelled from spec §3/§4.1.  A `BoundingBox` is an axis-aligned
rectangle `(x, y, width, height)` in frame pixel coordinates. -/
structure BoundingBox where
  x : ℚ
  y : ℚ
  w : ℚ
  h : ℚ
deriving Repr, DecidableEq

/-- Modelled from the spec (glossary): "Centroid: the geometric center point
`(x + w/2, y + h/2)` of a bounding box". -/
def BoundingBox.centroid (b : BoundingBox) : ℚ × ℚ :=
  (b.x + b.w / 2, b.y + b.h / 2)

/-- Modelled from the spec (§3, §4.1): the tracker state — live identities
with their latest centroids, per-identity disappearance counters, the
monotonically increasing id counter, and the two thresholds. -/
structure CentroidTracker where
  nextObjectID : ℕ
  objects : List (ℕ × (ℚ × ℚ))
  disappeared : List (ℕ × ℕ)
  maxDisappeared : ℕ
  maxDistance : ℚ
deriving Repr, DecidableEq

/-- Modelled from the spec (§4.1): register an input centroid as a new
identity under the monotonically increasing counter, with disappearance
counter 0. -/
def CentroidTracker.register (t : CentroidTracker) (c : ℚ × ℚ) :
    CentroidTracker :=
  { t with
    objects := t.objects ++ [(t.nextObjectID, c)],
    disappeared := t.disappeared ++ [(t.nextObjectID, 0)],
    nextObjectID := t.nextObjectID + 1 }

/-- Modelled from the spec (§4.1 step 3): with no input boxes, increment the
disappearance counter of every live identity and deregister any whose
counter exceeds `maxDisappeared`. -/
def CentroidTracker.markDisappeared (t : CentroidTracker) : CentroidTracker :=
  let dis := t.disappeared.map (fun p => (p.1, p.2 + 1))
  let live := dis.filter (fun p => decide (p.2 ≤ t.maxDisappeared))
  { t with
    disappeared := live,
    objects := t.objects.filter (fun p => live.any (fun q => q.1 == p.1)) }

/-- Squared euclidean distance between two centroids; the spec's comparison
`distance ≤ maxDistance` is taken between squares, which is exact in ℚ. -/
def sqDist (a b : ℚ × ℚ) : ℚ :=
  (a.1 - b.1) ^ 2 + (a.2 - b.2) ^ 2

/-- Modelled from the spec (§4.1 step 4): the globally smallest remaining
(identity, input) pair by distance, ties broken deterministically by first
row, then first matching column — realised by a strict-improvement fold over
the pairs in row-major order. -/
def bestPair (rows cols : List (ℕ × (ℚ × ℚ))) :
    Option ((ℕ × (ℚ × ℚ)) × (ℕ × (ℚ × ℚ))) :=
  (rows.flatMap (fun r => cols.map (fun c => (r, c)))).foldl
    (fun best p =>
      match best with
      | none => some p
      | some q => if sqDist p.1.2 p.2.2 < sqDist q.1.2 q.2.2 then some p else best)
    none

/-- Modelled from the spec (§4.1 step 4): greedy matching — repeatedly pick
the globally smallest remaining distance, assign the pair if the distance is
at most `maxDistance` (inclusive), remove both sides, and continue; once the
smallest remaining distance exceeds `maxDistance` nothing further can be
assigned.  Returns `(identity, input index, input centroid)` triples; the
fuel argument bounds the rounds by the number of live identities. -/
def greedyMatch : ℕ → List (ℕ × (ℚ × ℚ)) → List (ℕ × (ℚ × ℚ)) → ℚ →
    List (ℕ × ℕ × (ℚ × ℚ))
  | 0, _, _, _ => []
  | fuel + 1, rows, cols, maxD =>
      match bestPair rows cols with
      | none => []
      | some (r, c) =>
          if sqDist r.2 c.2 ≤ maxD ^ 2 then
            (r.1, c.1, c.2) ::
              greedyMatch fuel (rows.filter (fun p => p.1 != r.1))
                (cols.filter (fun p => p.1 != c.1)) maxD
          else []

/-- Modelled from the spec (§4.1 steps 4-6): apply the greedy matching to
the live identities and the indexed input centroids; matched identities take
their matched centroid and reset their disappearance counter to 0 (glossary),
unmatched identities increment their counter and are deregistered once it
exceeds `maxDisappeared` (step 5), and unmatched input centroids are
registered as new identities in input order (step 5). -/
def CentroidTracker.applyMatches (t : CentroidTracker)
    (cols : List (ℕ × (ℚ × ℚ))) : CentroidTracker :=
  let matchList := greedyMatch t.objects.length t.objects cols t.maxDistance
  let usedRow := matchList.map (fun m => m.1)
  let usedCol := matchList.map (fun m => m.2.1)
  let dis1 := t.disappeared.map
    (fun p => if usedRow.contains p.1 then (p.1, 0) else (p.1, p.2 + 1))
  let deadIds := (dis1.filter
    (fun p => !(usedRow.contains p.1) && decide (t.maxDisappeared < p.2))).map
      Prod.fst
  let objects1 := t.objects.filterMap
    (fun p =>
      match matchList.find? (fun m => m.1 == p.1) with
      | some m => some (p.1, m.2.2)
      | none => if deadIds.contains p.1 then none else some p)
  let dis2 := dis1.filter (fun p => !(deadIds.contains p.1))
  let t1 : CentroidTracker := { t with objects := objects1, disappeared := dis2 }
  ((cols.filter (fun c => !(usedCol.contains c.1))).map Prod.snd).foldl
    CentroidTracker.register t1

/-- Modelled from the spec (§4.1): `update(boxes)`, in the spec's step
order — compute the input centroids; with no live identities register every
input centroid and return; with no input boxes run the disappearance pass;
otherwise run the matching.  The returned mapping from identity to latest
centroid is the `objects` field of the resulting tracker. -/
def CentroidTracker.update (t : CentroidTracker) (boxes : List BoundingBox) :
    CentroidTracker :=
  let inputCentroids := boxes.map BoundingBox.centroid
  if t.objects.isEmpty then inputCentroids.foldl CentroidTracker.register t
  else if inputCentroids.isEmpty then t.markDisappeared
  else t.applyMatches inputCentroids.enum

/-- The identities visible in the tracker's `update` output. -/
def trackerIds (t : CentroidTracker) : List ℕ := t.objects.map Prod.fst

/-- `n` consecutive `update([])` calls (frames with no input boxes). -/
def emptyUpdates (t : CentroidTracker) : ℕ → CentroidTracker
  | 0 => t
  | n + 1 => (emptyUpdates t n).update []

/-- Statement-side closed form for sequential registration: the identities
`n, n + 1, ...` paired with the given centroids in order. -/
def registerAll (n : ℕ) : List (ℚ × ℚ) → List (ℕ × (ℚ × ℚ))
  | [] => []
  | c :: cs => (n, c) :: registerAll (n + 1) cs

theorem foldl_register_objects (cs : List (ℚ × ℚ)) (t : CentroidTracker) :
    (cs.foldl CentroidTracker.register t).objects
        = t.objects ++ registerAll t.nextObjectID cs ∧
      (cs.foldl CentroidTracker.register t).nextObjectID
        = t.nextObjectID + cs.length := by
  induction cs generalizing t with
  | nil => simp [registerAll]
  | cons c cs ih =>
    obtain ⟨ih1, ih2⟩ := ih (t.register c)
    constructor
    · rw [List.foldl_cons, ih1]
      simp [CentroidTracker.register, registerAll]
    · rw [List.foldl_cons, ih2]
      simp [CentroidTracker.register]
      omega

theorem registerAll_ids (cs : List (ℚ × ℚ)) (n i : ℕ)
    (hi : i ∈ (registerAll n cs).map Prod.fst) : n ≤ i := by
  induction cs generalizing n with
  | nil => simp [registerAll] at hi
  | cons c cs ih =>
    simp only [registerAll, List.map_cons, List.mem_cons] at hi
    rcases hi with hi | hi
    · omega
    · have := ih (n + 1) hi
      omega

/-- C8 (spec-modelled): a call to `update` on a tracker with no live
identities registers every input box as a new identity — the result maps the
consecutive ids `nextObjectID, nextObjectID + 1, ...` to the centroids of
the input boxes in order, so exactly `N` new identities appear with
monotonically increasing ids, each mapped to its own box's centroid. -/
theorem update_empty_registers (t : CentroidTracker)
    (boxes : List BoundingBox) (hempty : t.objects = []) :
    (t.update boxes).objects
        = registerAll t.nextObjectID (boxes.map BoundingBox.centroid) ∧
      (t.update boxes).nextObjectID = t.nextObjectID + boxes.length := by
  have h := foldl_register_objects (boxes.map BoundingBox.centroid) t
  rw [hempty] at h
  unfold CentroidTracker.update
  rw [if_pos (by simp [hempty])]
  exact ⟨by simpa using h.1, by simpa using h.2⟩

theorem update_empty_registers_witness :
    (CentroidTracker.mk 0 [] [] 40 50).objects = [] ∧
      ((CentroidTracker.mk 0 [] [] 40 50).update
          [⟨10, 10, 10, 10⟩, ⟨200, 200, 10, 10⟩]).objects
        = registerAll 0
            ([(⟨10, 10, 10, 10⟩ : BoundingBox),
              ⟨200, 200, 10, 10⟩].map BoundingBox.centroid) :=
  ⟨rfl, (update_empty_registers (CentroidTracker.mk 0 [] [] 40 50)
    [⟨10, 10, 10, 10⟩, ⟨200, 200, 10, 10⟩] rfl).1⟩

theorem registerFirst :
    (CentroidTracker.mk 0 [] [] 40 50).update [⟨100, 100, 0, 0⟩] =
      CentroidTracker.mk 1 [(0, BoundingBox.centroid ⟨100, 100, 0, 0⟩)]
        [(0, 0)] 40 50 := rfl

theorem singleEmptyStep_live (c : ℚ × ℚ) (k : ℕ) (hk : k < 40) :
    (CentroidTracker.mk 1 [(0, c)] [(0, k)] 40 50).update [] =
      CentroidTracker.mk 1 [(0, c)] [(0, k + 1)] 40 50 := by
  have hk40 : k + 1 ≤ 40 := hk
  unfold CentroidTracker.update CentroidTracker.markDisappeared
  simp [hk40]

theorem singleEmptyStep_dead (c : ℚ × ℚ) (k : ℕ) (hk : 40 ≤ k) :
    (CentroidTracker.mk 1 [(0, c)] [(0, k)] 40 50).update [] =
      CentroidTracker.mk 1 [] [] 40 50 := by
  have hk40 : ¬ (k + 1 ≤ 40) := by omega
  unfold CentroidTracker.update CentroidTracker.markDisappeared
  simp [hk40]

theorem emptyState_fixed :
    (CentroidTracker.mk 1 [] [] 40 50).update [] =
      CentroidTracker.mk 1 [] [] 40 50 := rfl

theorem emptyUpdates_closed_live (c : ℚ × ℚ) (k : ℕ) (hk : k ≤ 40) :
    emptyUpdates (CentroidTracker.mk 1 [(0, c)] [(0, 0)] 40 50) k =
      CentroidTracker.mk 1 [(0, c)] [(0, k)] 40 50 := by
  induction k with
  | zero => rfl
  | succ k ih =>
    have hk40 : k ≤ 40 := by omega
    have hklt : k < 40 := by omega
    show (emptyUpdates (CentroidTracker.mk 1 [(0, c)] [(0, 0)] 40 50) k).update []
      = _
    rw [ih hk40, singleEmptyStep_live c k hklt]

theorem emptyUpdates_closed_dead (c : ℚ × ℚ) (k : ℕ) (hk : 41 ≤ k) :
    emptyUpdates (CentroidTracker.mk 1 [(0, c)] [(0, 0)] 40 50) k =
      CentroidTracker.mk 1 [] [] 40 50 := by
  induction k with
  | zero => omega
  | succ k ih =>
    show (emptyUpdates (CentroidTracker.mk 1 [(0, c)] [(0, 0)] 40 50) k).update []
      = _
    by_cases hk41 : 41 ≤ k
    · rw [ih hk41, emptyState_fixed]
    · have hk40 : k = 40 := by omega
      subst hk40
      rw [emptyUpdates_closed_live c 40 (by omega),
        singleEmptyStep_dead c 40 (by omega)]

theorem filterMap_fst_subset (l : List (ℕ × (ℚ × ℚ)))
    (f : ℕ × (ℚ × ℚ) → Option (ℕ × (ℚ × ℚ)))
    (hf : ∀ p q, f p = some q → q.1 = p.1) (i : ℕ)
    (hi : i ∈ (l.filterMap f).map Prod.fst) : i ∈ l.map Prod.fst := by
  obtain ⟨q, hq, rfl⟩ := List.mem_map.mp hi
  obtain ⟨p, hp, hfp⟩ := List.mem_filterMap.mp hq
  exact List.mem_map.mpr ⟨p, hp, (hf p q hfp).symm⟩

theorem markDisappeared_ids (t : CentroidTracker) (i : ℕ)
    (hi : i ∈ trackerIds t.markDisappeared) : i ∈ trackerIds t := by
  simp only [trackerIds, CentroidTracker.markDisappeared] at hi ⊢
  obtain ⟨p, hp, rfl⟩ := List.mem_map.mp hi
  exact List.mem_map.mpr ⟨p, (List.mem_filter.mp hp).1, rfl⟩

theorem applyMatches_ids (t : CentroidTracker) (cols : List (ℕ × (ℚ × ℚ)))
    (i : ℕ) (hi : i ∈ trackerIds (t.applyMatches cols)) :
    i ∈ trackerIds t ∨ t.nextObjectID ≤ i := by
  simp only [trackerIds, CentroidTracker.applyMatches] at hi
  rw [(foldl_register_objects _ _).1] at hi
  simp only [List.map_append, List.mem_append] at hi
  rcases hi with hi | hi
  · left
    refine filterMap_fst_subset t.objects _ ?_ i hi
    intro p q hfp
    split at hfp
    · exact (Option.some.injEq _ _ ▸ hfp).symm ▸ rfl
    · split at hfp
      · exact absurd hfp (by simp)
      · rw [Option.some.injEq] at hfp
        rw [← hfp]
  · right
    exact registerAll_ids _ _ i hi

theorem applyMatches_nextID (t : CentroidTracker)
    (cols : List (ℕ × (ℚ × ℚ))) :
    t.nextObjectID ≤ (t.applyMatches cols).nextObjectID := by
  simp only [CentroidTracker.applyMatches]
  rw [(foldl_register_objects _ _).2]
  exact Nat.le_add_right _ _

theorem update_ids (t : CentroidTracker) (boxes : List BoundingBox) (i : ℕ)
    (hi : i ∈ trackerIds (t.update boxes)) :
    i ∈ trackerIds t ∨ t.nextObjectID ≤ i := by
  simp only [CentroidTracker.update] at hi
  by_cases h1 : t.objects.isEmpty
  · rw [if_pos h1] at hi
    rw [trackerIds, (foldl_register_objects _ t).1] at hi
    simp only [List.map_append, List.mem_append] at hi
    rcases hi with hi | hi
    · exact Or.inl hi
    · exact Or.inr (registerAll_ids _ _ i hi)
  · rw [if_neg h1] at hi
    by_cases h2 : (boxes.map BoundingBox.centroid).isEmpty
    · rw [if_pos h2] at hi
      exact Or.inl (markDisappeared_ids t i hi)
    · rw [if_neg h2] at hi
      exact applyMatches_ids t _ i hi

theorem update_nextID_mono (t : CentroidTracker) (boxes : List BoundingBox) :
    t.nextObjectID ≤ (t.update boxes).nextObjectID := by
  simp only [CentroidTracker.update]
  by_cases h1 : t.objects.isEmpty
  · rw [if_pos h1, (foldl_register_objects _ t).2]
    exact Nat.le_add_right _ _
  · rw [if_neg h1]
    by_cases h2 : (boxes.map BoundingBox.centroid).isEmpty
    · rw [if_pos h2]
      exact le_refl _
    · rw [if_neg h2]
      exact applyMatches_nextID t _

theorem retired_stays (later : List (List BoundingBox)) (t : CentroidTracker)
    (i : ℕ) (h1 : i ∉ trackerIds t) (h2 : i < t.nextObjectID) :
    i ∉ trackerIds (later.foldl CentroidTracker.update t) := by
  induction later generalizing t with
  | nil => exact h1
  | cons bs rest ih =>
    refine ih (t.update bs) ?_ ?_
    · intro hmem
      rcases update_ids t bs i hmem with hmem2 | hge
      · exact h1 hmem2
      · exact absurd h2 (not_lt.mpr hge)
    · exact lt_of_lt_of_le h2 (update_nextID_mono t bs)

/-- C7 (spec-modelled): on a tracker with `maxDisappeared = 40` that
registered identity 0 from one box on frame 1, each subsequent `update([])`
call increments the identity's disappearance counter; the identity stays in
the output with counter `k` after `k ≤ 40` empty calls and is deregistered
on the 41st empty call (frame 42), after which it is absent from every later
`update` output — for empty and non-empty inputs alike — and never reappears
under identity 0. -/
theorem disappearance_deregisters (k : ℕ) (later : List (List BoundingBox)) :
    (k ≤ 40 →
      emptyUpdates ((CentroidTracker.mk 0 [] [] 40 50).update
          [⟨100, 100, 0, 0⟩]) k =
        CentroidTracker.mk 1 [(0, BoundingBox.centroid ⟨100, 100, 0, 0⟩)]
          [(0, k)] 40 50) ∧
    (41 ≤ k →
      0 ∉ trackerIds (later.foldl CentroidTracker.update
        (emptyUpdates ((CentroidTracker.mk 0 [] [] 40 50).update
          [⟨100, 100, 0, 0⟩]) k))) := by
  rw [registerFirst]
  constructor
  · exact emptyUpdates_closed_live _ k
  · intro hk
    rw [emptyUpdates_closed_dead _ k hk]
    exact retired_stays later _ 0 (by simp [trackerIds]) (by norm_num)

theorem disappearance_deregisters_witness :
    ((5 : ℕ) ≤ 40 ∧
      emptyUpdates ((CentroidTracker.mk 0 [] [] 40 50).update
          [⟨100, 100, 0, 0⟩]) 5 =
        CentroidTracker.mk 1 [(0, BoundingBox.centroid ⟨100, 100, 0, 0⟩)]
          [(0, 5)] 40 50) ∧
    ((41 : ℕ) ≤ 41 ∧
      0 ∉ trackerIds ([[(⟨100, 100, 0, 0⟩ : BoundingBox)]].foldl
        CentroidTracker.update
        (emptyUpdates ((CentroidTracker.mk 0 [] [] 40 50).update
          [⟨100, 100, 0, 0⟩]) 41))) :=
  ⟨⟨by decide, (disappearance_deregisters 5 []).1 (by decide)⟩,
    ⟨by decide, (disappearance_deregisters 41
      [[(⟨100, 100, 0, 0⟩ : BoundingBox)]]).2 (by decide)⟩⟩

end RTPC
